import Mathlib

/-!
# Farkle game engine: a shallow embedding

This file embeds the Farkle server game engine (`server/gameEngine.js`,
`server/state.js`, with the shuffle helper of `server/socketHandlers.js`)
into Lean and proves properties of the embedded transition functions.

Modelling conventions:
* JS objects become structures; `null`/`undefined` become `Option`.
* Die faces and scores are `Nat` (the engine only ever produces
  non-negative integers for these fields).
* The injected randomness source (`crypto.randomInt` die draws) is made
  explicit: functions that roll dice take a list of pre-drawn faces and
  consume it positionally, exactly in the order the JS code draws.
* Fields that no engine logic reads (timestamps, display names, player
  secrets, connection flags, game ids) are omitted from the model.
* `clonePlayers` / `cloneDiceArray` are deep copies in JS; under value
  semantics they are the identity and are modelled as such.
-/

namespace Farkle

/-- One die: `value = none` models the JS `value: null` blank die shown
before the first roll of a turn. -/
structure DieState where
  value : Option Nat
  selectable : Bool
deriving DecidableEq, Repr

/-- The live dice selection of a turn (`selection` object in JS). -/
structure Selection where
  selectedIndices : List Nat
  isValid : Bool
  selectionScore : Nat
deriving DecidableEq, Repr

/-- Turn status enum: `awaiting_first_roll`, `awaiting_selection`,
`awaiting_roll`. -/
inductive TurnStatus where
  | awaitingFirstRoll
  | awaitingSelection
  | awaitingRoll
deriving DecidableEq, Repr

/-- The current turn (`TurnState` in JS). -/
structure TurnState where
  playerId : String
  dice : List DieState
  accumulatedTurnScore : Nat
  selection : Selection
  bestSelectableScore : Nat
  status : TurnStatus
deriving DecidableEq, Repr

/-- Game phase enum: `lobby`, `in_progress`, `finished`. -/
inductive Phase where
  | lobby
  | inProgress
  | finished
deriving DecidableEq, Repr

/-- A seated player; secret, name, connectivity flag and timestamps are
omitted (no engine transition reads them). -/
structure PlayerState where
  playerId : String
  totalScore : Nat
  hasEnteredGame : Bool
deriving DecidableEq, Repr

/-- Final-round tracking (`finalRound` object in JS). `createNewGame`
always initializes it, so it is modelled as always present and
`normalizeFinalRound` is the identity. -/
structure FinalRoundState where
  active : Bool
  triggeringPlayerId : Option String
  remainingPlayerIds : List String
deriving DecidableEq, Repr

/-- Game configuration (`config` object in JS). -/
structure GameConfig where
  minimumEntryScore : Nat
  targetScore : Nat
deriving DecidableEq, Repr

/-- The full game snapshot (`GameState` in JS); `gameId`, `createdAt` and
`finishedAt` are omitted. -/
structure GameState where
  phase : Phase
  config : GameConfig
  players : List PlayerState
  turnOrder : List String
  activeTurnIndex : Nat
  turn : Option TurnState
  finalRound : FinalRoundState
deriving DecidableEq, Repr

/-- Result of `scoreDice` (the `{score, isValid}` record). -/
structure ScoreResult where
  score : Nat
  isValid : Bool
deriving DecidableEq, Repr

/-- Occurrences of face `f` among `values`. -/
def faceCount (values : List Nat) (f : Nat) : Nat :=
  values.count f

/-- Whether `values` is a 1-6 straight: six dice containing each face once. -/
def isStraight (values : List Nat) : Bool :=
  values.length = 6 && (List.range 6).all fun i => faceCount values (i + 1) = 1

/-- Whether six dice decompose entirely into pairs (three pairs; a
four-of-a-kind plus a pair also qualifies, per the documented precedence). -/
def isThreePairs (values : List Nat) : Bool :=
  values.length = 6
    && values.all (fun v => 1 ≤ v && v ≤ 6)
    && (List.range 6).all fun i => faceCount values (i + 1) % 2 = 0

/-- Whether six dice form two distinct triplets. -/
def isTwoTriplets (values : List Nat) : Bool :=
  values.length = 6
    && ((List.range 6).filter fun i => faceCount values (i + 1) = 3).length = 2

/-- Base value of a triplet of face `f`: 1000 for aces, otherwise 100 × face. -/
def tripletBase (f : Nat) : Nat :=
  if f = 1 then 1000 else f * 100

/-- Score contributed by face `f` occurring `c` times under the
n-of-a-kind rule: base × 1/2/3/4 for 3/4/5/6 of a kind, else 0. -/
def kindScore (f c : Nat) : Nat :=
  if 3 ≤ c then tripletBase f * (c - 2) else 0

/-- Score contributed by leftover (count < 3) dice of face `f`: each
leftover 1 is 100 and each leftover 5 is 50. -/
def singlesScore (f c : Nat) : Nat :=
  if 3 ≤ c then 0
  else if f = 1 then c * 100
  else if f = 5 then c * 50
  else 0

/-- Whether every die is consumed by the kind/singles rules: faces 2, 3,
4 and 6 appear either not at all or at least three times, and no value
falls outside 1-6. -/
def allConsumed (values : List Nat) : Bool :=
  values.all (fun v => 1 ≤ v && v ≤ 6)
    && (List.range 6).all fun i =>
      let f := i + 1
      let c := faceCount values f
      f = 1 || f = 5 || c = 0 || 3 ≤ c

/-- Modelled from the spec: `scoreSelection` of the scoring engine
(`server/scoring.js` is absent from the sources; only its tests and the
scoring-rules document are present). Precedence follows the spec exactly:
empty is valid with score 0; then a 1-6 straight (1500), three pairs
(1500) and two distinct triplets (2500) on six dice; otherwise
n-of-a-kind groups are scored at base × (n − 2) and leftover 1s/5s at
100/50, and the selection is valid only if every die was consumed. -/
def scoreDice (values : List Nat) : ScoreResult :=
  if values = [] then ⟨0, true⟩
  else if isStraight values then ⟨1500, true⟩
  else if isThreePairs values then ⟨1500, true⟩
  else if isTwoTriplets values then ⟨2500, true⟩
  else
    let total :=
      ((List.range 6).map fun i =>
        kindScore (i + 1) (faceCount values (i + 1))
          + singlesScore (i + 1) (faceCount values (i + 1))).sum
    if allConsumed values then ⟨total, true⟩ else ⟨0, false⟩

/-- Modelled from the spec: `isBust` of the absent scoring engine — true
iff the roll has no 1, no 5, no triplet-or-better, no straight and no
three-pairs pattern (no subset could score); empty input is a bust. -/
def isBust (values : List Nat) : Bool :=
  !(values.contains 1)
    && !(values.contains 5)
    && ((List.range 6).all fun i => faceCount values (i + 1) < 3)
    && !((List.range 6).all fun i => values.contains (i + 1))
    && ((List.range 6).map fun i => faceCount values (i + 1) / 2).sum < 3

/-- Modelled from the spec: `getBestScore`/`bestScoringSubset` of the
absent scoring engine — greedy: score the whole input if it is valid and
non-empty, otherwise peel every n-of-a-kind group (n ≥ 3) plus all
leftover 1s and 5s and score that constructed subset. Returns the score
together with the chosen values (`selection` in JS). -/
def getBestScore (values : List Nat) : Nat × List Nat :=
  let whole := scoreDice values
  if whole.isValid && !values.isEmpty then
    (whole.score, values)
  else
    let subsetValues :=
      (List.range 6).flatMap fun i =>
        let f := i + 1
        let c := faceCount values f
        if 3 ≤ c then List.replicate c f
        else if f = 1 || f = 5 then List.replicate c f
        else []
    ((scoreDice subsetValues).score, subsetValues)

/-- Result of `evaluateSelection` (the `{isValid, selectionScore}` record). -/
structure EvalResult where
  isValid : Bool
  selectionScore : Nat
deriving DecidableEq, Repr

/-- Face value read through an index: JS `dice[index].value`, where an
out-of-range index or a blank die yields a non-scoring placeholder (JS
`undefined`/`null`, modelled as 0, which never scores and always poisons
the selection — exactly the JS observable behavior). -/
def dieValueAt (dice : List DieState) (i : Nat) : Nat :=
  ((dice.get? i).bind (·.value)).getD 0

/-- `evaluateSelection` of gameEngine.js: an empty index list is reported
invalid with score 0; otherwise the selected faces are scored with
`scoreDice` and an invalid score is forced to 0. -/
def evaluateSelection (dice : List DieState) (selectedIndices : List Nat) : EvalResult :=
  if selectedIndices = [] then ⟨false, 0⟩
  else
    let selectedValues := selectedIndices.map (dieValueAt dice)
    let result := scoreDice selectedValues
    if !result.isValid then ⟨false, 0⟩
    else ⟨true, result.score⟩

/-- Roll outcome tags reported by `rollTurnDice` (and the bust tag some
paths of `startGame`/`advanceToNextTurn` could report). -/
inductive Outcome where
  | bust
  | hotDice
deriving DecidableEq, Repr

/-- Result of an engine transition: JS `{success, gameState?, error?,
outcome?}` — a failure carries no snapshot. -/
inductive EngineResult where
  | ok (gameState : GameState) (outcome : Option Outcome)
  | err (error : String)
deriving DecidableEq, Repr

/-- Whether a transition succeeded. -/
def EngineResult.isOk : EngineResult → Bool
  | .ok _ _ => true
  | .err _ => false

/-- The outcome tag of a successful transition (`none` also on failure). -/
def EngineResult.outcomeOf : EngineResult → Option Outcome
  | .ok _ oc => oc
  | .err _ => none

/-- The snapshot of a successful transition, with a fallback default. -/
def EngineResult.stateD : EngineResult → GameState → GameState
  | .ok g _, _ => g
  | .err _, d => d

/-- An array of blank dice (`blankDice` in JS): no value shown, not
selectable — used before a turn's first roll. -/
def blankDice (count : Nat) : List DieState :=
  List.replicate count ⟨none, false⟩

/-- The fresh turn object `startGame`/`advanceToNextTurn` build: blank
dice, empty selection, zero scores, status `awaiting_first_roll`. -/
def freshTurn (playerId : String) : TurnState :=
  { playerId := playerId
    dice := blankDice 6
    accumulatedTurnScore := 0
    selection := ⟨[], false, 0⟩
    bestSelectableScore := 0
    status := TurnStatus.awaitingFirstRoll }

/-- Values of the currently selectable dice (JS
`dice.filter(d => d.selectable).map(d => d.value)`; a `null` value maps
to the non-scoring placeholder 0). -/
def selectableValuesOf (dice : List DieState) : List Nat :=
  (dice.filter (·.selectable)).map fun d => d.value.getD 0

/-- `removeFromRemaining` of gameEngine.js: while a final round is
active, drop a player from the still-owes-a-turn list. -/
def removeFromRemaining (fr : FinalRoundState) (playerId : String) : FinalRoundState :=
  if !fr.active then fr
  else { fr with remainingPlayerIds := fr.remainingPlayerIds.filter (· ≠ playerId) }

/-- `finishGame` of gameEngine.js: move to the `finished` phase and clear
the turn (the `finishedAt` timestamp is outside the model); rejected if
already finished. -/
def finishGame (g : GameState) : EngineResult :=
  if g.phase = Phase.finished then .err "Game is already finished"
  else .ok { g with phase := Phase.finished, turn := none } none

/-- The (index, face) pairs of the selectable dice, in index order (the
`selectableEntries` array of `computeDefaultSelection`). -/
def selectableEntries (dice : List DieState) : List (Nat × Nat) :=
  ((List.range dice.length).filter fun i => (dice.getD i ⟨none, false⟩).selectable).map
    fun i => (i, dieValueAt dice i)

/-- Map the chosen face values of the best-scoring subset back to die
indices, consuming for each value the first still-unused selectable die
showing it (the `valueToIndices` map + `shift` loop of
`computeDefaultSelection`); fails if some value has no die left. -/
def pickIndices : List Nat → List (Nat × Nat) → Option (List Nat)
  | [], _ => some []
  | v :: vs, avail =>
    match avail.find? (fun e => e.2 == v) with
    | none => none
    | some e =>
      match pickIndices vs (avail.eraseP (fun e2 => e2.2 == v)) with
      | none => none
      | some rest => some (e.1 :: rest)

/-- Ascending sort of a list of die indices (JS `.sort((a, b) => a - b)`). -/
def sortIndices (l : List Nat) : List Nat :=
  l.insertionSort (· ≤ ·)

/-- `computeDefaultSelection` of gameEngine.js: auto-select the
best-scoring subset of the selectable dice, mapped back to sorted die
indices, re-validated through `evaluateSelection`. -/
def computeDefaultSelection (dice : List DieState) : List Nat × EvalResult :=
  if dice.isEmpty then ([], ⟨false, 0⟩)
  else
    let entries := selectableEntries dice
    if entries.isEmpty then ([], ⟨false, 0⟩)
    else
      let best := getBestScore (entries.map (·.2))
      if best.2.isEmpty then ([], ⟨false, 0⟩)
      else
        match pickIndices best.2 entries with
        | none => ([], ⟨false, 0⟩)
        | some idxs =>
          let selectedIndices := sortIndices idxs
          let evaluation := evaluateSelection dice selectedIndices
          if !evaluation.isValid then ([], evaluation)
          else (selectedIndices, evaluation)

/-- `applyDefaultSelectionToTurn` of gameEngine.js: install the default
selection and recompute the cached `bestSelectableScore` (the banking
ceiling) from all currently selectable dice. -/
def applyDefaultSelectionToTurn (turn : TurnState) : TurnState :=
  let pair := computeDefaultSelection turn.dice
  let selectableValues := selectableValuesOf turn.dice
  let best := if !selectableValues.isEmpty then (getBestScore selectableValues).1 else 0
  if !pair.2.isValid || pair.1.isEmpty then
    { turn with
      selection := ⟨[], false, 0⟩
      bestSelectableScore := best
      status := TurnStatus.awaitingSelection }
  else
    { turn with
      selection := ⟨pair.1, true, pair.2.selectionScore⟩
      bestSelectableScore := best
      status := TurnStatus.awaitingRoll }

/-- The state built by `advanceToNextTurn` before its immediate-bust
check: next index in turn order (wrapping), fresh blank turn for that
player. -/
def advanceCore (g : GameState) : GameState :=
  let nextIndex := (g.activeTurnIndex + 1) % g.turnOrder.length
  { g with
    activeTurnIndex := nextIndex
    turn := some (freshTurn (g.turnOrder.getD nextIndex "")) }

/-- The decision taken by the body of `handleImmediateBust` before any
recursive call: no bust (blank or scoring selectable dice), or a bust
that finishes the game (last pending final-round player), or a bust that
advances to the next turn. -/
inductive BustDecision where
  | noBust
  | finishAfterBust (cleared : GameState)
  | advanceAfterBust (cleared : GameState)
deriving DecidableEq, Repr

/-- First half of `handleImmediateBust` of gameEngine.js: inspect the
selectable dice of the current turn and classify the follow-up. -/
def bustDecision (g : GameState) : BustDecision :=
  match g.phase, g.turn with
  | Phase.inProgress, some turn =>
    let selectableValues := selectableValuesOf turn.dice
    if selectableValues = [] then .noBust
    else if !(isBust selectableValues) then .noBust
    else
      let updatedFinalRound := removeFromRemaining g.finalRound turn.playerId
      let clearedGame := { g with turn := none, finalRound := updatedFinalRound }
      if updatedFinalRound.active && updatedFinalRound.remainingPlayerIds.isEmpty then
        .finishAfterBust clearedGame
      else .advanceAfterBust clearedGame
  | _, _ => .noBust

/-- The bust-check outcome record of `handleImmediateBust`:
`{bust, gameState, error?}`. -/
structure BustCheck where
  bust : Bool
  gameState : GameState
  error : Option String
deriving DecidableEq, Repr

/-- Re-wrap a nested transition result, dropping its outcome tag (the JS
callers return `{ success: true, gameState }`). -/
def okDropOutcome : EngineResult → EngineResult
  | .ok g2 _ => .ok g2 none
  | .err e => .err e

/-- Re-wrap a nested transition result, tagging success with the `bust`
outcome (the JS bust paths return `{ success, gameState, outcome: 'bust' }`). -/
def okWithBust : EngineResult → EngineResult
  | .ok g2 _ => .ok g2 (some Outcome.bust)
  | .err e => .err e

/-- Turn a nested transition result into the `{bust: true, ...}` record of
`handleImmediateBust`, falling back to the pre-transition state on error. -/
def resultToBustCheck (fallback : GameState) : EngineResult → BustCheck
  | .ok g2 _ => ⟨true, g2, none⟩
  | .err e => ⟨true, fallback, some e⟩

/-- `advanceToNextTurn` of gameEngine.js, with the mutual recursion
through `handleImmediateBust` bounded by explicit fuel. The nested bust
check always sees a fresh blank (non-selectable) turn and so never
recurses in fact; the fuel only bounds that dead branch so the JS
call graph can be transcribed as structural recursion. -/
def advanceToNextTurnF : Nat → GameState → EngineResult
  | fuel, g =>
    if g.phase ≠ Phase.inProgress then .err "Cannot advance turn in this phase"
    else
      let newGameState := advanceCore g
      let bc : BustCheck :=
        match bustDecision newGameState with
        | .noBust => ⟨false, newGameState, none⟩
        | .finishAfterBust cleared => resultToBustCheck newGameState (finishGame cleared)
        | .advanceAfterBust cleared =>
          match fuel with
          | 0 => ⟨true, newGameState, some "ADVANCE_FAILED"⟩
          | fuel' + 1 => resultToBustCheck newGameState (advanceToNextTurnF fuel' cleared)
      if bc.bust then
        match bc.error with
        | some e => .err e
        | none => .ok bc.gameState (some Outcome.bust)
      else .ok newGameState none

/-- Fuel bound for the never-exercised bust/advance recursion. -/
def engineFuel : Nat := 8

/-- `advanceToNextTurn` of gameEngine.js. -/
def advanceToNextTurn (g : GameState) : EngineResult :=
  advanceToNextTurnF engineFuel g

/-- `handleImmediateBust` of gameEngine.js: returns whether the freshly
installed turn busted immediately and the resulting state. -/
def handleImmediateBust (g : GameState) : BustCheck :=
  match bustDecision g with
  | .noBust => ⟨false, g, none⟩
  | .finishAfterBust cleared => resultToBustCheck g (finishGame cleared)
  | .advanceAfterBust cleared => resultToBustCheck g (advanceToNextTurn cleared)

/-- `startGame` of gameEngine.js: from the lobby with at least one
player, enter `in_progress` with a fresh blank first turn for the player
at turn-order position 0, then run the immediate-bust check. -/
def startGame (g : GameState) : EngineResult :=
  if g.phase ≠ Phase.lobby then .err "Cannot start game from this phase"
  else if g.players.isEmpty then .err "Cannot start game with no players"
  else
    let newGameState :=
      { g with
        phase := Phase.inProgress
        activeTurnIndex := 0
        turn := some (freshTurn (g.turnOrder.getD 0 "")) }
    let bustCheck := handleImmediateBust newGameState
    if bustCheck.bust then
      match bustCheck.error with
      | some e => .err e
      | none => .ok bustCheck.gameState (some Outcome.bust)
    else .ok newGameState none

/-- Fresh six-dice roll (`rollInitialDice` in JS), drawing faces from the
injected randomness list positionally. -/
def rollFreshDice (rolls : List Nat) : List DieState :=
  (List.range 6).map fun i => ⟨some (rolls.getD i 1), true⟩

/-- The face values of a fresh six-dice roll. -/
def freshRollValues (rolls : List Nat) : List Nat :=
  (List.range 6).map fun i => rolls.getD i 1

/-- Index-validation loop of `rollTurnDice`: every selected index must be
in range and refer to a selectable die (indices are `Nat`, so the JS
`index < 0` case cannot arise). -/
def validateIndices (dice : List DieState) : List Nat → Option String
  | [] => none
  | i :: rest =>
    if dice.length ≤ i then some "SELECTION_OUT_OF_RANGE"
    else if !((dice.getD i ⟨none, false⟩).selectable) then some "DIE_NOT_SELECTABLE"
    else validateIndices dice rest

/-- Indices of the currently selectable dice, in order (the
`selectableIndices` array of `rollTurnDice`). -/
def selectableIndicesOf (dice : List DieState) : List Nat :=
  (List.range dice.length).filter fun i => (dice.getD i ⟨none, false⟩).selectable

/-- The re-roll loop of `rollTurnDice`: walk the dice by index, keep
locked dice, lock the selected ones, re-roll each unselected selectable
die with the next injected face; also collects the newly rolled values in
index order. -/
def rerollLoop (selSet : List Nat) : List DieState → Nat → List Nat → List DieState × List Nat
  | [], _, _ => ([], [])
  | d :: rest, idx, rolls =>
    if !d.selectable then
      let p := rerollLoop selSet rest (idx + 1) rolls
      (d :: p.1, p.2)
    else if selSet.contains idx then
      let p := rerollLoop selSet rest (idx + 1) rolls
      (⟨d.value, false⟩ :: p.1, p.2)
    else
      let v := rolls.headD 1
      let p := rerollLoop selSet rest (idx + 1) rolls.tail
      (⟨some v, true⟩ :: p.1, v :: p.2)

/-- Lock selected dice and re-roll the unselected selectable ones. -/
def rerollDice (selSet : List Nat) (dice : List DieState) (rolls : List Nat) :
    List DieState × List Nat :=
  rerollLoop selSet dice 0 rolls

/-- The bust block of `rollTurnDice` (duplicated verbatim in its two
branches in JS, factored here once): clear the turn, update the final
round, then finish the game or advance to the next turn, tagging the
result `bust`. -/
def bustOutcome (g : GameState) (turn : TurnState) : EngineResult :=
  let updatedFinalRound := removeFromRemaining g.finalRound turn.playerId
  let clearedGame := { g with turn := none, finalRound := updatedFinalRound }
  if updatedFinalRound.active && updatedFinalRound.remainingPlayerIds.isEmpty then
    okWithBust (finishGame clearedGame)
  else
    okWithBust (advanceToNextTurn clearedGame)

/-- `rollTurnDice` of gameEngine.js. `rolls` is the injected randomness:
the successive die faces `crypto.randomInt` would produce, consumed in
draw order. The JS `new Set(selectedIndices)` is modelled by `dedup`
(membership and size agree; only the never-observed iteration order of a
duplicated selection differs). -/
def rollTurnDice (rolls : List Nat) (g : GameState) : EngineResult :=
  match g.phase, g.turn with
  | Phase.inProgress, some turn =>
    let dice := turn.dice
    if turn.status = TurnStatus.awaitingFirstRoll then
      let newDice := rollFreshDice rolls
      let rolledValues := newDice.map fun d => d.value.getD 0
      if !rolledValues.isEmpty && isBust rolledValues then
        bustOutcome g turn
      else
        let newTurn := applyDefaultSelectionToTurn
          { turn with
            dice := newDice
            accumulatedTurnScore := 0
            selection := ⟨[], false, 0⟩
            status := TurnStatus.awaitingSelection }
        .ok { g with turn := some newTurn } none
    else if !turn.selection.isValid || turn.selection.selectedIndices.isEmpty then
      .err "INVALID_SELECTION"
    else
      let selSet := turn.selection.selectedIndices.dedup
      match validateIndices dice selSet with
      | some e => .err e
      | none =>
        let selectableIndices := selectableIndicesOf dice
        let hotDiceCase := selSet.length = selectableIndices.length && !selectableIndices.isEmpty
        let rolled :=
          if hotDiceCase then (rollFreshDice rolls, freshRollValues rolls)
          else rerollDice selSet dice rolls
        let outcome : Option Outcome := if hotDiceCase then some Outcome.hotDice else none
        let rolledValues := if rolled.2 = [] then selectableValuesOf rolled.1 else rolled.2
        if !rolledValues.isEmpty && isBust rolledValues then
          bustOutcome g turn
        else
          let newTurn := applyDefaultSelectionToTurn
            { turn with
              dice := rolled.1
              accumulatedTurnScore := turn.accumulatedTurnScore + turn.selection.selectionScore
              selection := ⟨[], false, 0⟩
              status := TurnStatus.awaitingSelection }
          .ok { g with turn := some newTurn } outcome
  | _, _ => .err "INVALID_PHASE"

/-- Tail of `bankTurnScore`: with the players updated and the final round
settled, either finish the game (final round complete) or advance to the
next player's turn; the outcome tag of the advance is dropped in JS. -/
def bankContinue (interim : GameState) : EngineResult :=
  if interim.finalRound.active && interim.finalRound.remainingPlayerIds.isEmpty then
    okDropOutcome (finishGame interim)
  else
    okDropOutcome (advanceToNextTurn interim)

/-- `bankTurnScore` of gameEngine.js: bank the turn's accumulated score
plus the cached best selectable score into the owning player's total,
handling minimum entry, final-round triggering and completion. The JS
`_previousTotal` debug field is outside the model. -/
def bankTurnScore (g : GameState) : EngineResult :=
  match g.phase, g.turn with
  | Phase.inProgress, some turn =>
    let playerId := turn.playerId
    match g.players.findIdx? (fun p => p.playerId == playerId) with
    | none => .err "PLAYER_NOT_FOUND"
    | some playerIndex =>
      let bankTotal := turn.accumulatedTurnScore + turn.bestSelectableScore
      let finalRound1 :=
        if g.finalRound.active then removeFromRemaining g.finalRound playerId
        else g.finalRound
      if bankTotal = 0 then .err "BANK_ZERO"
      else
        let player := g.players.getD playerIndex ⟨"", 0, false⟩
        let newTotal := player.totalScore + bankTotal
        let minimumEntry := g.config.minimumEntryScore
        if !player.hasEnteredGame && decide (bankTotal < minimumEntry) then
          .err "MINIMUM_ENTRY_NOT_MET"
        else
          let updatedPlayer : PlayerState :=
            { player with
              totalScore := newTotal
              hasEnteredGame := player.hasEnteredGame || decide (minimumEntry ≤ bankTotal) }
          let playersCopy := g.players.set playerIndex updatedPlayer
          if !finalRound1.active && decide (g.config.targetScore ≤ newTotal) then
            let remaining := g.turnOrder.filter (· ≠ playerId)
            if remaining.isEmpty then
              okDropOutcome (finishGame { g with
                players := playersCopy
                turn := none
                finalRound := ⟨true, some playerId, []⟩ })
            else
              bankContinue { g with
                players := playersCopy
                turn := none
                finalRound := ⟨true, some playerId, remaining⟩ }
          else
            bankContinue { g with players := playersCopy, turn := none, finalRound := finalRound1 }
  | _, _ => .err "INVALID_PHASE"

/-- `addPlayer` of gameEngine.js: lobby only, non-empty id (JS truthiness
of `player.playerId`), no duplicate id; appends to roster and turn order
in lockstep. -/
def addPlayer (g : GameState) (player : PlayerState) : EngineResult :=
  if g.phase ≠ Phase.lobby then .err "Cannot add players in this phase"
  else if player.playerId = "" then .err "Invalid player"
  else if g.players.any (fun p => p.playerId == player.playerId) then
    .err "Player ID already exists"
  else
    .ok { g with
      players := g.players ++ [player]
      turnOrder := g.turnOrder ++ [player.playerId] } none

/-- `removePlayer` of gameEngine.js: lobby only, player must exist;
filters the id out of both roster and turn order. -/
def removePlayer (g : GameState) (playerId : String) : EngineResult :=
  if g.phase ≠ Phase.lobby then .err "Cannot remove players in this phase"
  else if !(g.players.any (fun p => p.playerId == playerId)) then .err "Player not found"
  else
    .ok { g with
      players := g.players.filter (fun p => p.playerId ≠ playerId)
      turnOrder := g.turnOrder.filter (· ≠ playerId) } none

/-- The toggled index set of `toggleDieSelection`: JS builds a `Set` from
the stored indices (modelled by `dedup`), then deletes the index if
present or adds it otherwise. -/
def toggledIndices (selectedIndices : List Nat) (dieIndex : Nat) : List Nat :=
  let currentlySelected := selectedIndices.dedup
  if currentlySelected.contains dieIndex then currentlySelected.filter (· ≠ dieIndex)
  else currentlySelected ++ [dieIndex]

/-- `toggleDieSelection` of gameEngine.js: flip membership of a
selectable die's index in the selection (JS `Set` modelled by `dedup`),
sort ascending, re-evaluate, and set the status from validity. -/
def toggleDieSelection (g : GameState) (dieIndex : Nat) : EngineResult :=
  if g.phase ≠ Phase.inProgress then .err "Cannot toggle selection in this phase"
  else
    match g.turn with
    | none => .err "No active turn to toggle selection"
    | some turn =>
      if turn.dice.length ≤ dieIndex then .err "Die index out of bounds"
      else if !((turn.dice.getD dieIndex ⟨none, false⟩).selectable) then
        .err "Die is not selectable"
      else
        let updatedIndices := sortIndices (toggledIndices turn.selection.selectedIndices dieIndex)
        let evaluation := evaluateSelection turn.dice updatedIndices
        let newStatus :=
          if evaluation.isValid then TurnStatus.awaitingRoll else TurnStatus.awaitingSelection
        .ok { g with turn := some { turn with
          selection := ⟨updatedIndices, evaluation.isValid, evaluation.selectionScore⟩
          status := newStatus } } none

/-- One downward pass of the Fisher-Yates loop of `defaultShuffle` in
socketHandlers.js: at position `i` (counting down to 1) swap with the
drawn position `j ∈ [0, i]`; `draws` supplies the successive
`crypto.randomInt(0, i + 1)` values of the injected randomness source. -/
def shuffleGo : Nat → List String → List Nat → List String
  | 0, result, _ => result
  | i + 1, result, draws =>
    let j := draws.headD 0
    let a := result.getD (i + 1) ""
    let b := result.getD j ""
    shuffleGo i ((result.set (i + 1) b).set j a) draws.tail

/-- `defaultShuffle` of socketHandlers.js: Fisher-Yates over a copy of
the list, drawing swap positions from the injected randomness source. -/
def defaultShuffle (draws : List Nat) (items : List String) : List String :=
  shuffleGo (items.length - 1) items draws

/-- The structural invariants exactly as the claim lists them (the checks
of `validateStateInvariants` in state.js, minus the in-progress-turn
presence check the claim does not mention). -/
def ClaimedInvariants (g : GameState) : Prop :=
  g.turnOrder.length = g.players.length ∧
  (g.phase ≠ Phase.inProgress → g.turn = none) ∧
  (g.phase = Phase.inProgress → g.activeTurnIndex < g.turnOrder.length) ∧
  (∀ pid ∈ g.turnOrder, pid ∈ g.players.map (·.playerId))

instance (g : GameState) : Decidable (ClaimedInvariants g) := by
  unfold ClaimedInvariants; infer_instance

/-- The claimed invariants strengthened by the spec's own §3 phrasing
that the turn order is a (duplicate-free) permutation of the roster's
player ids; this is the amendment the `removePlayer` counterexample
forces. -/
def GoodState (g : GameState) : Prop :=
  ClaimedInvariants g ∧ List.Perm g.turnOrder (g.players.map (·.playerId))

instance (g : GameState) : Decidable (GoodState g) := by
  unfold GoodState; infer_instance

/-- Example player records for concrete instantiations. -/
def playerA : PlayerState := ⟨"A", 0, false⟩

/-- Second example player record. -/
def playerB : PlayerState := ⟨"B", 0, false⟩

/-- A two-player lobby game with the default configuration. -/
def lobbyTwo : GameState :=
  { phase := Phase.lobby
    config := ⟨500, 10000⟩
    players := [playerA, playerB]
    turnOrder := ["A", "B"]
    activeTurnIndex := 0
    turn := none
    finalRound := ⟨false, none, []⟩ }

/-- The state `startGame` produces from the two-player lobby. -/
def lobbyTwoStarted : GameState :=
  { lobbyTwo with
    phase := Phase.inProgress
    activeTurnIndex := 0
    turn := some (freshTurn "A") }

/-- The state `advanceToNextTurn` produces from `lobbyTwoStarted`. -/
def lobbyTwoAdvanced : GameState :=
  { lobbyTwoStarted with
    activeTurnIndex := 1
    turn := some (freshTurn "B") }

/-- A concrete post-first-roll turn for player A: faces [1,5,2,2,3,3]
with the default selection [0, 1] worth 150. -/
def rolledTurnA : TurnState :=
  { playerId := "A"
    dice := [⟨some 1, true⟩, ⟨some 5, true⟩, ⟨some 2, true⟩,
             ⟨some 2, true⟩, ⟨some 3, true⟩, ⟨some 3, true⟩]
    accumulatedTurnScore := 0
    selection := ⟨[0, 1], true, 150⟩
    bestSelectableScore := 150
    status := TurnStatus.awaitingRoll }

/-- The two-player game mid-turn, holding `rolledTurnA`. -/
def rolledTwo : GameState :=
  { lobbyTwoStarted with turn := some rolledTurnA }

/-- The state after toggling die 0 of `rolledTwo`: selection [1] worth 50. -/
def rolledTwoToggled : GameState :=
  { rolledTwo with turn := some { rolledTurnA with
      selection := ⟨[1], true, 50⟩
      status := TurnStatus.awaitingRoll } }

/-- A mid-turn two-player game where player A has accumulated 300 and the
cached best selectable score is 250, enough to clear the 500 entry bar. -/
def bankReadyTurnA : TurnState :=
  { rolledTurnA with accumulatedTurnScore := 300, bestSelectableScore := 250 }

/-- The game holding `bankReadyTurnA`. -/
def bankReadyTwo : GameState :=
  { lobbyTwoStarted with turn := some bankReadyTurnA }

/-- A fresh blank turn has no selectable dice. -/
theorem selectableValuesOf_freshTurn (pid : String) :
    selectableValuesOf (freshTurn pid).dice = [] := rfl

/-- The immediate-bust decision on a state whose turn is a fresh blank
turn is always `noBust`: no die is selectable, so nothing can bust. -/
theorem bustDecision_of_freshTurn (g : GameState) (pid : String)
    (h : g.turn = some (freshTurn pid)) : bustDecision g = BustDecision.noBust := by
  unfold bustDecision
  cases hp : g.phase <;> simp [h, selectableValuesOf_freshTurn]

/-- `advanceToNextTurn` in the `in_progress` phase always succeeds with
the advanced state and no outcome tag: the freshly installed blank turn
can never trigger the immediate-bust path. -/
theorem advanceToNextTurnF_eq_ok (fuel : Nat) (g : GameState)
    (h : g.phase = Phase.inProgress) :
    advanceToNextTurnF fuel g = EngineResult.ok (advanceCore g) none := by
  have hfresh : (advanceCore g).turn
      = some (freshTurn (g.turnOrder.getD ((g.activeTurnIndex + 1) % g.turnOrder.length) "")) := rfl
  rw [advanceToNextTurnF]
  simp [h, bustDecision_of_freshTurn _ _ hfresh]

/-- `advanceToNextTurn` specialization of `advanceToNextTurnF_eq_ok`. -/
theorem advanceToNextTurn_eq_ok (g : GameState) (h : g.phase = Phase.inProgress) :
    advanceToNextTurn g = EngineResult.ok (advanceCore g) none :=
  advanceToNextTurnF_eq_ok engineFuel g h

/-- The immediate-bust check is a no-op on a state holding a fresh blank
turn. -/
theorem handleImmediateBust_of_freshTurn (g : GameState) (pid : String)
    (h : g.turn = some (freshTurn pid)) : handleImmediateBust g = ⟨false, g, none⟩ := by
  unfold handleImmediateBust
  rw [bustDecision_of_freshTurn g pid h]

/-- `startGame` from a non-empty lobby always succeeds, with no outcome
tag, producing exactly the state with phase `in_progress`, active index
0 and a fresh blank turn for the player at turn-order position 0. -/
theorem startGame_eq_ok (g : GameState) (h1 : g.phase = Phase.lobby)
    (h2 : g.players ≠ []) :
    startGame g = EngineResult.ok
      { g with
        phase := Phase.inProgress
        activeTurnIndex := 0
        turn := some (freshTurn (g.turnOrder.getD 0 "")) } none := by
  unfold startGame
  have hfresh : ({ g with
      phase := Phase.inProgress
      activeTurnIndex := 0
      turn := some (freshTurn (g.turnOrder.getD 0 "")) } : GameState).turn
      = some (freshTurn (g.turnOrder.getD 0 "")) := rfl
  rw [h1]
  simp only [ne_eq, not_true_eq_false, if_false, reduceIte]
  rw [handleImmediateBust_of_freshTurn _ _ hfresh]
  simp [h2]

/-- `applyDefaultSelectionToTurn` never changes the dice, the accumulated
score or the owning player of the turn it decorates. -/
theorem applyDefaultSelectionToTurn_frame (turn : TurnState) :
    (applyDefaultSelectionToTurn turn).dice = turn.dice ∧
    (applyDefaultSelectionToTurn turn).accumulatedTurnScore = turn.accumulatedTurnScore ∧
    (applyDefaultSelectionToTurn turn).playerId = turn.playerId := by
  unfold applyDefaultSelectionToTurn
  by_cases hc : (!(computeDefaultSelection turn.dice).2.isValid
      || (computeDefaultSelection turn.dice).1.isEmpty) = true <;> simp [hc]

/-- C5 (amended): evaluating the empty dice selection yields score 0 but
`isValid = false` for every dice array — the engine's `evaluateSelection`
short-circuits an empty index list to the invalid zero-score record (the
state factory's `createEmptySelection` marks the empty selection valid,
but the engine's evaluation used for toggling and rolling does not). -/
theorem C5_empty_selection_evaluates_invalid (dice : List DieState) :
    evaluateSelection dice [] = ⟨false, 0⟩ := rfl

/-- C5 counterexample: at the concrete one-die array `[⟨some 1, true⟩]`,
evaluating the empty selection returns `isValid = false`, refuting the
claim that the evaluation of an empty selection has `isValid = true` with
score 0. -/
theorem C5_counterexample :
    (evaluateSelection [⟨some 1, true⟩] []).isValid = false ∧
    ¬((evaluateSelection [⟨some 1, true⟩] []).isValid = true ∧
      (evaluateSelection [⟨some 1, true⟩] []).selectionScore = 0) := by decide

/-- C10: `startGame` and `advanceToNextTurn`, on success, always return a
snapshot whose turn has status `awaiting_first_roll` with six blank dice
(no value, not selectable) and never report the `bust` outcome — the
immediate-bust check they run is vacuous on a turn with no selectable
dice. -/
theorem C10_start_advance_awaiting_first_roll (g : GameState) :
    (∀ g' oc, startGame g = EngineResult.ok g' oc →
      oc = none ∧ ∃ t, g'.turn = some t ∧ t.status = TurnStatus.awaitingFirstRoll ∧
        t.dice.length = 6 ∧ ∀ d ∈ t.dice, d.value = none ∧ d.selectable = false) ∧
    (∀ g' oc, advanceToNextTurn g = EngineResult.ok g' oc →
      oc = none ∧ ∃ t, g'.turn = some t ∧ t.status = TurnStatus.awaitingFirstRoll ∧
        t.dice.length = 6 ∧ ∀ d ∈ t.dice, d.value = none ∧ d.selectable = false) := by
  have hblank : ∀ pid, (freshTurn pid).status = TurnStatus.awaitingFirstRoll ∧
      (freshTurn pid).dice.length = 6 ∧
      ∀ d ∈ (freshTurn pid).dice, d.value = none ∧ d.selectable = false := by
    intro pid
    refine ⟨rfl, rfl, ?_⟩
    intro d hd
    rw [freshTurn] at hd
    simp only [blankDice, List.mem_replicate] at hd
    rw [hd.2]
    exact ⟨rfl, rfl⟩
  constructor
  · intro g' oc hs
    by_cases h1 : g.phase = Phase.lobby
    · by_cases h2 : g.players = []
      · rw [startGame] at hs
        simp [h1, h2] at hs
      · rw [startGame_eq_ok g h1 h2] at hs
        cases hs
        exact ⟨rfl, freshTurn (g.turnOrder.getD 0 ""), rfl, hblank _⟩
    · rw [startGame] at hs
      simp [h1] at hs
  · intro g' oc hs
    by_cases h1 : g.phase = Phase.inProgress
    · rw [advanceToNextTurn_eq_ok g h1] at hs
      cases hs
      exact ⟨rfl, freshTurn (g.turnOrder.getD ((g.activeTurnIndex + 1) % g.turnOrder.length) ""),
        rfl, hblank _⟩
    · rw [advanceToNextTurn, advanceToNextTurnF] at hs
      simp [h1] at hs

/-- C10 witness: at the concrete two-player game, both `startGame` and
`advanceToNextTurn` succeed and the theorem's conclusions hold. -/
theorem C10_start_advance_awaiting_first_roll_witness :
    (startGame lobbyTwo = EngineResult.ok lobbyTwoStarted none ∧
      advanceToNextTurn lobbyTwoStarted = EngineResult.ok lobbyTwoAdvanced none) ∧
    ((none : Option Outcome) = none ∧ ∃ t, lobbyTwoStarted.turn = some t ∧
      t.status = TurnStatus.awaitingFirstRoll ∧ t.dice.length = 6 ∧
      ∀ d ∈ t.dice, d.value = none ∧ d.selectable = false) ∧
    ((none : Option Outcome) = none ∧ ∃ t, lobbyTwoAdvanced.turn = some t ∧
      t.status = TurnStatus.awaitingFirstRoll ∧ t.dice.length = 6 ∧
      ∀ d ∈ t.dice, d.value = none ∧ d.selectable = false) :=
  ⟨⟨by decide, by decide⟩,
    (C10_start_advance_awaiting_first_roll lobbyTwo).1 lobbyTwoStarted none (by decide),
    (C10_start_advance_awaiting_first_roll lobbyTwoStarted).2 lobbyTwoAdvanced none (by decide)⟩

/-- C6 (amended): `startGame` leaves the turn order exactly as it was
handed in — roster/join order — and succeeds from any non-empty lobby
with active index 0. The Fisher-Yates shuffle (`defaultShuffle` in
socketHandlers.js) is applied by the socket transport layer to
`game.turnOrder` before `startGame` is invoked, not by `startGame`
itself. -/
theorem C6_startGame_preserves_turnOrder (g : GameState)
    (h1 : g.phase = Phase.lobby) (h2 : g.players ≠ []) :
    ∃ g', startGame g = EngineResult.ok g' none ∧ g'.turnOrder = g.turnOrder ∧
      g'.activeTurnIndex = 0 ∧ g'.phase = Phase.inProgress := by
  exact ⟨_, startGame_eq_ok g h1 h2, rfl, rfl, rfl⟩

/-- C6 witness: the two-player lobby starts successfully and keeps its
join-order turn order. -/
theorem C6_startGame_preserves_turnOrder_witness :
    lobbyTwo.phase = Phase.lobby ∧ lobbyTwo.players ≠ [] ∧
    ∃ g', startGame lobbyTwo = EngineResult.ok g' none ∧ g'.turnOrder = lobbyTwo.turnOrder ∧
      g'.activeTurnIndex = 0 ∧ g'.phase = Phase.inProgress :=
  ⟨by decide, by decide, C6_startGame_preserves_turnOrder lobbyTwo (by decide) (by decide)⟩

/-- C6 counterexample: with the injected draw 0, the repository's
Fisher-Yates shuffle would turn the roster order `["A", "B"]` into
`["B", "A"]`, but a successful `startGame` on the two-player lobby
returns turn order `["A", "B"]` — the roster/join order, not the
shuffled permutation — refuting the claim that `startGame` produces a
turn order permuted by the Fisher-Yates shuffle of the randomness
source. -/
theorem C6_counterexample :
    lobbyTwo.phase = Phase.lobby ∧ lobbyTwo.players ≠ [] ∧
    defaultShuffle [0] lobbyTwo.turnOrder = ["B", "A"] ∧
    (startGame lobbyTwo).isOk = true ∧
    ((startGame lobbyTwo).stateD lobbyTwo).turnOrder = ["A", "B"] ∧
    (["A", "B"] : List String) ≠ ["B", "A"] := by decide

/-- C9: a successful `toggleDieSelection` changes only the turn's
selection and status — the turn's dice, accumulated score, cached best
selectable score (the banking ceiling) and owner, and the game's players,
turn order, active index, phase, config and final round are identical to
the input snapshot's. -/
theorem C9_toggle_frame (g g' : GameState) (t : TurnState) (oc : Option Outcome) (i : Nat)
    (ht : g.turn = some t) (hs : toggleDieSelection g i = EngineResult.ok g' oc) :
    ∃ t', g'.turn = some t' ∧ t'.dice = t.dice ∧
      t'.accumulatedTurnScore = t.accumulatedTurnScore ∧
      t'.bestSelectableScore = t.bestSelectableScore ∧
      t'.playerId = t.playerId ∧
      g'.players = g.players ∧ g'.turnOrder = g.turnOrder ∧
      g'.activeTurnIndex = g.activeTurnIndex ∧ g'.phase = g.phase ∧
      g'.config = g.config ∧ g'.finalRound = g.finalRound := by
  rw [toggleDieSelection] at hs
  by_cases h1 : g.phase = Phase.inProgress
  · rw [ht] at hs
    by_cases h2 : t.dice.length ≤ i
    · simp [h1, h2] at hs
    · by_cases h3 : (t.dice.getD i ⟨none, false⟩).selectable = true
      · simp only [h1, h2, h3, ne_eq, not_true_eq_false, if_false, reduceIte,
          not_false_eq_true, if_true, Bool.not_true, Bool.false_eq_true] at hs
        rw [EngineResult.ok.injEq] at hs
        obtain ⟨hg, hoc⟩ := hs
        subst hg
        exact ⟨_, rfl, rfl, rfl, rfl, rfl, rfl, rfl, rfl, h1.symm, rfl, rfl⟩
      · have h3f : ((t.dice[i]?).getD (⟨none, false⟩ : DieState)).selectable = false := by
          rw [← List.getD_eq_getElem?_getD]
          simpa using h3
        simp [h1, h2, h3f] at hs
  · simp [h1] at hs

/-- C9 witness: toggling die 0 of the concrete mid-turn game succeeds and
only the selection/status change. -/
theorem C9_toggle_frame_witness :
    toggleDieSelection rolledTwo 0 = EngineResult.ok rolledTwoToggled none ∧
    ∃ t', rolledTwoToggled.turn = some t' ∧ t'.dice = rolledTurnA.dice ∧
      t'.accumulatedTurnScore = rolledTurnA.accumulatedTurnScore ∧
      t'.bestSelectableScore = rolledTurnA.bestSelectableScore ∧
      t'.playerId = rolledTurnA.playerId ∧
      rolledTwoToggled.players = rolledTwo.players ∧
      rolledTwoToggled.turnOrder = rolledTwo.turnOrder ∧
      rolledTwoToggled.activeTurnIndex = rolledTwo.activeTurnIndex ∧
      rolledTwoToggled.phase = rolledTwo.phase ∧
      rolledTwoToggled.config = rolledTwo.config ∧
      rolledTwoToggled.finalRound = rolledTwo.finalRound :=
  ⟨by decide, C9_toggle_frame rolledTwo rolledTwoToggled rolledTurnA none 0 rfl (by decide)⟩

/-- Read a list element through `getD` when `get?` is known. -/
theorem getD_of_get? {α : Type} (l : List α) (i : Nat) (a d : α)
    (h : l.get? i = some a) : l.getD i d = a := by
  rw [List.getD_eq_getElem?_getD, ← List.get?_eq_getElem?, h]
  rfl

/-- Reading back the element just written by `set`. -/
theorem get?_set_self {α : Type} (l : List α) (i : Nat) (a : α) (h : i < l.length) :
    (l.set i a).get? i = some a := by
  rw [List.get?_eq_getElem?]
  exact List.getElem?_set_eq_of_lt a h

/-- Invert `okDropOutcome` on a successful result. -/
theorem okDropOutcome_eq_ok (r : EngineResult) (g' : GameState) (oc : Option Outcome)
    (h : okDropOutcome r = EngineResult.ok g' oc) :
    (∃ oc0, r = EngineResult.ok g' oc0) ∧ oc = none := by
  cases r with
  | ok g2 oc2 =>
    simp only [okDropOutcome, EngineResult.ok.injEq] at h
    exact ⟨⟨oc2, by rw [h.1]⟩, h.2.symm⟩
  | err e => simp [okDropOutcome] at h

/-- Invert `okWithBust` on a successful result. -/
theorem okWithBust_eq_ok (r : EngineResult) (g' : GameState) (oc : Option Outcome)
    (h : okWithBust r = EngineResult.ok g' oc) :
    (∃ oc0, r = EngineResult.ok g' oc0) ∧ oc = some Outcome.bust := by
  cases r with
  | ok g2 oc2 =>
    simp only [okWithBust, EngineResult.ok.injEq] at h
    exact ⟨⟨oc2, by rw [h.1]⟩, h.2.symm⟩
  | err e => simp [okWithBust] at h

/-- `finishGame` on success only flips the phase to `finished` and clears
the turn. -/
theorem finishGame_fields (X g' : GameState) (oc : Option Outcome)
    (hs : finishGame X = EngineResult.ok g' oc) :
    g' = { X with phase := Phase.finished, turn := none } := by
  unfold finishGame at hs
  by_cases hc : X.phase = Phase.finished
  · simp [hc] at hs
  · rw [if_neg hc] at hs
    cases hs
    rfl

/-- The finish-or-advance tail of `bankTurnScore` preserves the players
list. -/
theorem bankContinue_players (X : GameState) (hph : X.phase = Phase.inProgress) :
    ∀ g' oc, bankContinue X = EngineResult.ok g' oc → g'.players = X.players := by
  intro g' oc hs
  unfold bankContinue at hs
  by_cases hc : (X.finalRound.active && X.finalRound.remainingPlayerIds.isEmpty) = true
  · rw [if_pos hc] at hs
    obtain ⟨⟨oc0, hr⟩, -⟩ := okDropOutcome_eq_ok _ _ _ hs
    rw [finishGame_fields X g' oc0 hr]
  · rw [if_neg hc, advanceToNextTurn_eq_ok X hph] at hs
    simp only [okDropOutcome, EngineResult.ok.injEq] at hs
    rw [← hs.1]
    rfl

/-- C4: when the turn's owner has never entered the game and the bank
amount (accumulated + cached best selectable score) is positive but below
the configured minimum entry score, `bankTurnScore` fails with the
distinct minimum-entry error code and returns no snapshot (the input
snapshot is untouched — transitions are pure). -/
theorem C4_minimum_entry_rejected (g : GameState) (t : TurnState) (i : Nat) (p : PlayerState)
    (hph : g.phase = Phase.inProgress) (ht : g.turn = some t)
    (hfind : g.players.findIdx? (fun q => q.playerId == t.playerId) = some i)
    (hget : g.players.get? i = some p)
    (hentered : p.hasEnteredGame = false)
    (hpos : 0 < t.accumulatedTurnScore + t.bestSelectableScore)
    (hbelow : t.accumulatedTurnScore + t.bestSelectableScore < g.config.minimumEntryScore) :
    bankTurnScore g = EngineResult.err "MINIMUM_ENTRY_NOT_MET" := by
  have hgetE : (g.players[i]?).getD (⟨"", 0, false⟩ : PlayerState) = p := by
    rw [← List.getD_eq_getElem?_getD]
    exact getD_of_get? _ _ _ _ hget
  have hzero : ¬(t.accumulatedTurnScore + t.bestSelectableScore = 0) := by omega
  unfold bankTurnScore
  rw [hph, ht]
  simp [hfind, hgetE, hzero, hentered, hbelow]

/-- C4 witness: a concrete 100-point turn for a not-yet-entered player is
rejected with the minimum-entry error. -/
theorem C4_minimum_entry_rejected_witness :
    rolledTwo.phase = Phase.inProgress ∧ rolledTwo.turn = some rolledTurnA ∧
    rolledTwo.players.findIdx? (fun q => q.playerId == rolledTurnA.playerId) = some 0 ∧
    rolledTwo.players.get? 0 = some playerA ∧ playerA.hasEnteredGame = false ∧
    0 < rolledTurnA.accumulatedTurnScore + rolledTurnA.bestSelectableScore ∧
    rolledTurnA.accumulatedTurnScore + rolledTurnA.bestSelectableScore
      < rolledTwo.config.minimumEntryScore ∧
    bankTurnScore rolledTwo = EngineResult.err "MINIMUM_ENTRY_NOT_MET" :=
  ⟨by decide, by decide, by decide, by decide, by decide, by decide, by decide,
    C4_minimum_entry_rejected rolledTwo rolledTurnA 0 playerA (by decide) (by decide)
      (by decide) (by decide) (by decide) (by decide) (by decide)⟩

/-- C1: a successful `bankTurnScore` increases the owning player's total
score by exactly `accumulatedTurnScore + bestSelectableScore` (the cached
banking ceiling, not the live selection's score), keeps the player's id,
and never flips `hasEnteredGame` back from true to false. -/
theorem C1_bank_increases_total (g g' : GameState) (t : TurnState) (oc : Option Outcome)
    (i : Nat) (p : PlayerState)
    (hph : g.phase = Phase.inProgress) (ht : g.turn = some t)
    (hfind : g.players.findIdx? (fun q => q.playerId == t.playerId) = some i)
    (hget : g.players.get? i = some p)
    (hs : bankTurnScore g = EngineResult.ok g' oc) :
    ∃ p', g'.players.get? i = some p' ∧
      p'.totalScore = p.totalScore + (t.accumulatedTurnScore + t.bestSelectableScore) ∧
      (p.hasEnteredGame = true → p'.hasEnteredGame = true) ∧
      p'.playerId = p.playerId := by
  have hgetD : g.players.getD i (⟨"", 0, false⟩ : PlayerState) = p := getD_of_get? _ _ _ _ hget
  have hilen : i < g.players.length := (List.get?_eq_some.mp hget).1
  set bankTotal := t.accumulatedTurnScore + t.bestSelectableScore with hbt
  set updatedPlayer : PlayerState :=
    { p with
      totalScore := p.totalScore + bankTotal
      hasEnteredGame := p.hasEnteredGame || decide (g.config.minimumEntryScore ≤ bankTotal) }
    with hup
  have hplayers : g'.players = g.players.set i updatedPlayer := by
    unfold bankTurnScore at hs
    rw [hph, ht] at hs
    simp only [hfind, hgetD] at hs
    rw [← hbt, ← hup] at hs
    by_cases hzero : bankTotal = 0
    · simp [hzero] at hs
    · by_cases hmin : (!p.hasEnteredGame && decide (bankTotal < g.config.minimumEntryScore)) = true
      · simp only [hzero, if_false, reduceIte, hmin, if_true] at hs
        cases hs
      · simp only [hzero, if_false, reduceIte, hmin, Bool.false_eq_true, if_true] at hs
        split at hs
        all_goals try (split at hs)
        all_goals try (split at hs)
        all_goals first
          | exact bankContinue_players _ (by rfl) g' oc hs
          | (obtain ⟨⟨oc0, hr⟩, -⟩ := okDropOutcome_eq_ok _ _ _ hs;
             rw [finishGame_fields _ g' oc0 hr];
             try rfl)
  refine ⟨updatedPlayer, ?_, rfl, ?_, rfl⟩
  · rw [hplayers]
    exact get?_set_self _ _ _ hilen
  · intro hpe
    rw [hup]
    simp [hpe]

/-- C1 witness: banking the concrete 300 + 250 turn succeeds and raises
player A's total from 0 to 550, flipping `hasEnteredGame` on. -/
theorem C1_bank_increases_total_witness :
    bankReadyTwo.phase = Phase.inProgress ∧ bankReadyTwo.turn = some bankReadyTurnA ∧
    bankReadyTwo.players.findIdx? (fun q => q.playerId == bankReadyTurnA.playerId) = some 0 ∧
    bankReadyTwo.players.get? 0 = some playerA ∧
    (bankTurnScore bankReadyTwo).isOk = true ∧
    ∃ p', ((bankTurnScore bankReadyTwo).stateD bankReadyTwo).players.get? 0 = some p' ∧
      p'.totalScore = playerA.totalScore
        + (bankReadyTurnA.accumulatedTurnScore + bankReadyTurnA.bestSelectableScore) ∧
      (playerA.hasEnteredGame = true → p'.hasEnteredGame = true) ∧
      p'.playerId = playerA.playerId :=
  ⟨by decide, by decide, by decide, by decide, by decide,
    C1_bank_increases_total bankReadyTwo ((bankTurnScore bankReadyTwo).stateD bankReadyTwo)
      bankReadyTurnA none 0 playerA (by decide) (by decide) (by decide) (by decide) (by decide)⟩

/-- Sorting an already ≤-sorted index list is the identity. -/
theorem sortIndices_eq_self (l : List Nat) (h : l.Sorted (· ≤ ·)) : sortIndices l = l :=
  List.eq_of_perm_of_sorted (List.perm_insertionSort _ l) (List.sorted_insertionSort _ l) h

/-- Sorting any permutation of a ≤-sorted list returns that list. -/
theorem sortIndices_eq_of_perm (l m : List Nat) (hp : List.Perm l m)
    (hm : m.Sorted (· ≤ ·)) : sortIndices l = m :=
  List.eq_of_perm_of_sorted ((List.perm_insertionSort _ l).trans hp)
    (List.sorted_insertionSort _ l) hm

/-- The two filter predicates "decidably not equal" and "bne" agree. -/
theorem filter_ne_eq_filter_bne (l : List Nat) (i : Nat) :
    l.filter (fun x => decide (x ≠ i)) = l.filter (fun x => x != i) := by
  congr 1
  funext x
  by_cases h : x = i <;> simp [h]

/-- Toggling the same index twice through dedup/filter-or-append/sort
returns a strictly sorted index list to itself. -/
theorem toggledIndices_twice (S : List Nat) (i : Nat) (hsorted : S.Sorted (· < ·)) :
    sortIndices (toggledIndices (sortIndices (toggledIndices S i)) i) = S := by
  have hnodup : S.Nodup := hsorted.nodup
  have hSle : S.Sorted (· ≤ ·) := hsorted.le_of_lt
  have hdedup : S.dedup = S := hnodup.dedup
  have herase : S.filter (fun x => decide (x ≠ i)) = S.erase i := by
    rw [filter_ne_eq_filter_bne, hnodup.erase_eq_filter]
  by_cases hin : S.contains i = true
  · have hmem : i ∈ S := by simpa using hin
    have hT : toggledIndices S i = S.filter (fun x => decide (x ≠ i)) := by
      unfold toggledIndices
      rw [hdedup, if_pos hin]
    have hTsorted : (S.filter (fun x => decide (x ≠ i))).Sorted (· ≤ ·) :=
      List.Pairwise.filter _ hSle
    have hsort1 : sortIndices (toggledIndices S i) = S.filter (fun x => decide (x ≠ i)) := by
      rw [hT]
      exact sortIndices_eq_self _ hTsorted
    have hTnodup : (S.filter (fun x => decide (x ≠ i))).Nodup := hnodup.filter _
    have hTnoti : ¬((S.filter (fun x => decide (x ≠ i))).contains i = true) := by
      simp [List.mem_filter]
    have h2 : toggledIndices (S.filter (fun x => decide (x ≠ i))) i
        = S.filter (fun x => decide (x ≠ i)) ++ [i] := by
      unfold toggledIndices
      rw [hTnodup.dedup, if_neg hTnoti]
    rw [hsort1, h2, herase]
    apply sortIndices_eq_of_perm _ _ _ hSle
    exact (List.perm_append_singleton i _).trans (List.perm_cons_erase hmem).symm
  · have hmem : i ∉ S := by simpa using hin
    have hT : toggledIndices S i = S ++ [i] := by
      unfold toggledIndices
      rw [hdedup, if_neg hin]
    have hUperm : List.Perm (sortIndices (S ++ [i])) (i :: S) :=
      (List.perm_insertionSort _ _).trans (List.perm_append_singleton i S)
    have hUnodup : (sortIndices (S ++ [i])).Nodup :=
      hUperm.nodup_iff.mpr (List.nodup_cons.mpr ⟨hmem, hnodup⟩)
    have hUi : (sortIndices (S ++ [i])).contains i = true := by
      have : i ∈ sortIndices (S ++ [i]) := hUperm.mem_iff.mpr (List.mem_cons_self i S)
      simpa using this
    have h2 : toggledIndices (sortIndices (S ++ [i])) i
        = (sortIndices (S ++ [i])).filter (fun x => decide (x ≠ i)) := by
      unfold toggledIndices
      rw [hUnodup.dedup, if_pos hUi]
    have hfe : (sortIndices (S ++ [i])).filter (fun x => decide (x ≠ i))
        = (sortIndices (S ++ [i])).erase i := by
      rw [filter_ne_eq_filter_bne, hUnodup.erase_eq_filter]
    rw [hT, h2, hfe]
    apply sortIndices_eq_of_perm _ _ _ hSle
    have hpe := hUperm.erase i
    rw [List.erase_cons_head] at hpe
    exact hpe

/-- The exact successful result of `toggleDieSelection` on a selectable
in-range index. -/
theorem toggleDieSelection_eq_ok (g : GameState) (t : TurnState) (i : Nat)
    (hph : g.phase = Phase.inProgress) (ht : g.turn = some t)
    (hlt : i < t.dice.length)
    (hseldie : (t.dice.getD i ⟨none, false⟩).selectable = true) :
    toggleDieSelection g i = EngineResult.ok
      { g with turn := some { t with
          selection :=
            ⟨sortIndices (toggledIndices t.selection.selectedIndices i),
             (evaluateSelection t.dice
               (sortIndices (toggledIndices t.selection.selectedIndices i))).isValid,
             (evaluateSelection t.dice
               (sortIndices (toggledIndices t.selection.selectedIndices i))).selectionScore⟩
          status := if (evaluateSelection t.dice
              (sortIndices (toggledIndices t.selection.selectedIndices i))).isValid
            then TurnStatus.awaitingRoll else TurnStatus.awaitingSelection } } none := by
  unfold toggleDieSelection
  have hnlt : ¬(t.dice.length ≤ i) := by omega
  have hseldieE : ((t.dice[i]?).getD (⟨none, false⟩ : DieState)).selectable = true := by
    rw [← List.getD_eq_getElem?_getD]
    exact hseldie
  rw [hph, ht]
  simp [hnlt, hseldieE]

/-- C7: toggling a selectable die twice restores the selection exactly —
for every in-progress game whose stored selection is the engine-computed
one (strictly sorted indices with the cached validity/score equal to
their evaluation, as every engine transition maintains), two applications
of `toggleDieSelection` at the same selectable index return a snapshot
whose selection (indices, validity, score) equals the original. -/
theorem C7_toggle_involutive (g : GameState) (t : TurnState) (i : Nat)
    (hph : g.phase = Phase.inProgress) (ht : g.turn = some t)
    (hlt : i < t.dice.length)
    (hseldie : (t.dice.getD i ⟨none, false⟩).selectable = true)
    (hsorted : t.selection.selectedIndices.Sorted (· < ·))
    (heval : evaluateSelection t.dice t.selection.selectedIndices
      = ⟨t.selection.isValid, t.selection.selectionScore⟩) :
    ∃ g₁ t₁ g₂ t₂, toggleDieSelection g i = EngineResult.ok g₁ none ∧ g₁.turn = some t₁ ∧
      toggleDieSelection g₁ i = EngineResult.ok g₂ none ∧ g₂.turn = some t₂ ∧
      t₂.selection = t.selection := by
  have h1 := toggleDieSelection_eq_ok g t i hph ht hlt hseldie
  refine ⟨_, _, _, _, h1, rfl,
    toggleDieSelection_eq_ok _ _ i hph rfl hlt hseldie, rfl, ?_⟩
  show (⟨sortIndices (toggledIndices (sortIndices
        (toggledIndices t.selection.selectedIndices i)) i),
      (evaluateSelection t.dice (sortIndices (toggledIndices (sortIndices
        (toggledIndices t.selection.selectedIndices i)) i))).isValid,
      (evaluateSelection t.dice (sortIndices (toggledIndices (sortIndices
        (toggledIndices t.selection.selectedIndices i)) i))).selectionScore⟩ : Selection)
      = t.selection
  rw [toggledIndices_twice _ i hsorted, heval]

/-- C7 witness: double-toggling die index 0 of the concrete mid-turn game
restores the selection `[0, 1]` worth 150. -/
theorem C7_toggle_involutive_witness :
    rolledTwo.phase = Phase.inProgress ∧ rolledTwo.turn = some rolledTurnA ∧
    0 < rolledTurnA.dice.length ∧
    (rolledTurnA.dice.getD 0 ⟨none, false⟩).selectable = true ∧
    rolledTurnA.selection.selectedIndices.Sorted (· < ·) ∧
    evaluateSelection rolledTurnA.dice rolledTurnA.selection.selectedIndices
      = ⟨rolledTurnA.selection.isValid, rolledTurnA.selection.selectionScore⟩ ∧
    ∃ g₁ t₁ g₂ t₂, toggleDieSelection rolledTwo 0 = EngineResult.ok g₁ none ∧
      g₁.turn = some t₁ ∧ toggleDieSelection g₁ 0 = EngineResult.ok g₂ none ∧
      g₂.turn = some t₂ ∧ t₂.selection = rolledTurnA.selection :=
  ⟨by decide, by decide, by decide, by decide, by decide, by decide,
    C7_toggle_involutive rolledTwo rolledTurnA 0 (by decide) (by decide) (by decide)
      (by decide) (by decide) (by decide)⟩

/-- A fresh six-dice roll is never empty. -/
theorem freshRollValues_ne_nil (rolls : List Nat) : freshRollValues rolls ≠ [] := by
  simp [freshRollValues, List.range_succ]

/-- The fresh dice of a six-dice roll: length six, all selectable. -/
theorem rollFreshDice_shape (rolls : List Nat) :
    (rollFreshDice rolls).length = 6 ∧ ∀ d ∈ rollFreshDice rolls, d.selectable = true := by
  constructor
  · simp [rollFreshDice]
  · intro d hd
    simp only [rollFreshDice, List.mem_map] at hd
    obtain ⟨i, -, hi⟩ := hd
    rw [← hi]

/-- C2 (amended): when the turn's valid non-empty selection covers every
currently selectable die AND the six freshly re-rolled dice are not
themselves a bust, `rollTurnDice` succeeds with outcome `hot_dice`, the
returned turn holds the 6 fresh all-selectable dice, and the accumulated
turn score is preserved (raised by the selection's score, not zeroed).
Without the no-bust proviso the claim fails: a busting fresh roll yields
outcome `bust` instead (see the counterexample). -/
theorem C2_hot_dice (g : GameState) (t : TurnState) (rolls : List Nat)
    (hph : g.phase = Phase.inProgress) (ht : g.turn = some t)
    (hstat : t.status ≠ TurnStatus.awaitingFirstRoll)
    (hvalid : t.selection.isValid = true)
    (hne : t.selection.selectedIndices ≠ [])
    (hval : validateIndices t.dice t.selection.selectedIndices.dedup = none)
    (hcover : t.selection.selectedIndices.dedup.length = (selectableIndicesOf t.dice).length)
    (hselne : selectableIndicesOf t.dice ≠ [])
    (hnobust : isBust (freshRollValues rolls) = false) :
    ∃ t', rollTurnDice rolls g
        = EngineResult.ok { g with turn := some t' } (some Outcome.hotDice) ∧
      t'.dice = rollFreshDice rolls ∧ t'.dice.length = 6 ∧
      (∀ d ∈ t'.dice, d.selectable = true) ∧
      t'.accumulatedTurnScore = t.accumulatedTurnScore + t.selection.selectionScore := by
  have hie : t.selection.selectedIndices.isEmpty = false := by
    simpa [List.isEmpty_iff] using hne
  have hsie : (selectableIndicesOf t.dice).isEmpty = false := by
    simpa [List.isEmpty_iff] using hselne
  have hfr : freshRollValues rolls ≠ [] := freshRollValues_ne_nil rolls
  have hmain : rollTurnDice rolls g = EngineResult.ok
      { g with turn := some (applyDefaultSelectionToTurn { t with
          dice := rollFreshDice rolls
          accumulatedTurnScore := t.accumulatedTurnScore + t.selection.selectionScore
          selection := ⟨[], false, 0⟩
          status := TurnStatus.awaitingSelection }) } (some Outcome.hotDice) := by
    unfold rollTurnDice
    rw [hph, ht]
    simp [hstat, hvalid, hie, hval, hcover, hsie, hfr, hnobust]
  obtain ⟨hd, hacc, -⟩ := applyDefaultSelectionToTurn_frame { t with
    dice := rollFreshDice rolls
    accumulatedTurnScore := t.accumulatedTurnScore + t.selection.selectionScore
    selection := ⟨[], false, 0⟩
    status := TurnStatus.awaitingSelection }
  refine ⟨_, hmain, hd, ?_, ?_, hacc⟩
  · rw [hd]
    exact (rollFreshDice_shape rolls).1
  · rw [hd]
    exact (rollFreshDice_shape rolls).2

/-- A turn for player A with all six dice selectable and all of them
selected as two triplets (1-1-1 / 5-5-5, worth 2500). -/
def hotTurnA : TurnState :=
  { playerId := "A"
    dice := [⟨some 1, true⟩, ⟨some 1, true⟩, ⟨some 1, true⟩,
             ⟨some 5, true⟩, ⟨some 5, true⟩, ⟨some 5, true⟩]
    accumulatedTurnScore := 200
    selection := ⟨[0, 1, 2, 3, 4, 5], true, 2500⟩
    bestSelectableScore := 2500
    status := TurnStatus.awaitingRoll }

/-- The two-player game holding `hotTurnA`. -/
def hotGameA : GameState :=
  { lobbyTwoStarted with turn := some hotTurnA }

/-- C2 witness: rolling `hotGameA` with the non-busting fresh faces
`[1,2,3,4,5,6]` produces the hot-dice outcome with six fresh selectable
dice and accumulated score 200 + 2500. -/
theorem C2_hot_dice_witness :
    hotGameA.phase = Phase.inProgress ∧ hotGameA.turn = some hotTurnA ∧
    hotTurnA.status ≠ TurnStatus.awaitingFirstRoll ∧
    hotTurnA.selection.isValid = true ∧
    hotTurnA.selection.selectedIndices ≠ [] ∧
    validateIndices hotTurnA.dice hotTurnA.selection.selectedIndices.dedup = none ∧
    hotTurnA.selection.selectedIndices.dedup.length
      = (selectableIndicesOf hotTurnA.dice).length ∧
    selectableIndicesOf hotTurnA.dice ≠ [] ∧
    isBust (freshRollValues [1, 2, 3, 4, 5, 6]) = false ∧
    ∃ t', rollTurnDice [1, 2, 3, 4, 5, 6] hotGameA
        = EngineResult.ok { hotGameA with turn := some t' } (some Outcome.hotDice) ∧
      t'.dice = rollFreshDice [1, 2, 3, 4, 5, 6] ∧ t'.dice.length = 6 ∧
      (∀ d ∈ t'.dice, d.selectable = true) ∧
      t'.accumulatedTurnScore
        = hotTurnA.accumulatedTurnScore + hotTurnA.selection.selectionScore :=
  ⟨by decide, by decide, by decide, by decide, by decide, by decide, by decide, by decide,
    by decide,
    C2_hot_dice hotGameA hotTurnA [1, 2, 3, 4, 5, 6] (by decide) (by decide) (by decide)
      (by decide) (by decide) (by decide) (by decide) (by decide) (by decide)⟩

/-- C2 counterexample: at `hotGameA`, with injected fresh faces
`[2,2,3,4,6,6]` (no 1, no 5, no triple, no straight, only two pairs),
the valid all-covering selection still leads `rollTurnDice` to report
outcome `bust` — not `hot_dice` — refuting the unconditional claim that
such a roll produces `hot_dice`. -/
theorem C2_counterexample :
    hotGameA.phase = Phase.inProgress ∧ hotGameA.turn = some hotTurnA ∧
    hotTurnA.selection.isValid = true ∧ hotTurnA.selection.selectedIndices ≠ [] ∧
    hotTurnA.selection.selectedIndices.dedup.length
      = (selectableIndicesOf hotTurnA.dice).length ∧
    (rollTurnDice [2, 2, 3, 4, 6, 6] hotGameA).isOk = true ∧
    (rollTurnDice [2, 2, 3, 4, 6, 6] hotGameA).outcomeOf = some Outcome.bust ∧
    some Outcome.bust ≠ some Outcome.hotDice := by decide

/-- C3 (amended): when a post-selection re-roll of the unselected
selectable dice yields faces with no scoring subset, `rollTurnDice`
succeeds with outcome `bust`, the players' totals are untouched (the
accumulated turn score is discarded, never added), and — provided the
bust does not empty an active final round's pending list — the
active-turn index advances to `(index + 1) % turnOrder.length`, wrapping
to 0 after the last, and remains a valid index. When the bust does empty
the final-round pending list the game finishes instead without advancing
(see the counterexample). -/
theorem C3_bust_advances (g : GameState) (t : TurnState) (rolls : List Nat)
    (hph : g.phase = Phase.inProgress) (ht : g.turn = some t)
    (hstat : t.status ≠ TurnStatus.awaitingFirstRoll)
    (hvalid : t.selection.isValid = true)
    (hne : t.selection.selectedIndices ≠ [])
    (hval : validateIndices t.dice t.selection.selectedIndices.dedup = none)
    (hnothot : t.selection.selectedIndices.dedup.length ≠ (selectableIndicesOf t.dice).length)
    (hrolledne : (rerollDice t.selection.selectedIndices.dedup t.dice rolls).2 ≠ [])
    (hbust : isBust (rerollDice t.selection.selectedIndices.dedup t.dice rolls).2 = true)
    (hfr : ¬((removeFromRemaining g.finalRound t.playerId).active = true ∧
        (removeFromRemaining g.finalRound t.playerId).remainingPlayerIds = []))
    (hidx : g.activeTurnIndex < g.turnOrder.length) :
    ∃ g', rollTurnDice rolls g = EngineResult.ok g' (some Outcome.bust) ∧
      g'.players = g.players ∧
      g'.activeTurnIndex = (g.activeTurnIndex + 1) % g.turnOrder.length ∧
      g'.activeTurnIndex < g'.turnOrder.length ∧
      g'.phase = Phase.inProgress := by
  have hie : t.selection.selectedIndices.isEmpty = false := by
    simpa [List.isEmpty_iff] using hne
  have hfrb : ((removeFromRemaining g.finalRound t.playerId).active
      && (removeFromRemaining g.finalRound t.playerId).remainingPlayerIds.isEmpty) = false := by
    rw [Bool.and_eq_false_iff]
    by_cases ha : (removeFromRemaining g.finalRound t.playerId).active = true
    · refine Or.inr ?_
      have hrne : (removeFromRemaining g.finalRound t.playerId).remainingPlayerIds ≠ [] :=
        fun hcon => hfr ⟨ha, hcon⟩
      simpa [List.isEmpty_iff] using hrne
    · exact Or.inl (by simpa using ha)
  have hlen0 : 0 < g.turnOrder.length := Nat.lt_of_le_of_lt (Nat.zero_le _) hidx
  have hmain : rollTurnDice rolls g = EngineResult.ok
      (advanceCore { g with
        turn := none
        finalRound := removeFromRemaining g.finalRound t.playerId }) (some Outcome.bust) := by
    unfold rollTurnDice
    rw [hph, ht]
    have hbustOut : bustOutcome g t = EngineResult.ok
        (advanceCore { g with
          turn := none
          finalRound := removeFromRemaining g.finalRound t.playerId }) (some Outcome.bust) := by
      unfold bustOutcome
      simp only [hfrb, Bool.false_eq_true, if_false, reduceIte]
      rw [advanceToNextTurn_eq_ok
        { g with turn := none, finalRound := removeFromRemaining g.finalRound t.playerId } hph]
      rfl
    simp [hstat, hvalid, hie, hval, hnothot, hrolledne, hbust, hbustOut]
    rw [hph]
  exact ⟨_, hmain, rfl, rfl, Nat.mod_lt _ hlen0, hph⟩

/-- A turn for player A with one locked-in ace selected (100), one other
selectable die, and 300 accumulated. -/
def bustTurnA : TurnState :=
  { playerId := "A"
    dice := [⟨some 1, true⟩, ⟨some 2, true⟩, ⟨some 3, false⟩,
             ⟨some 3, false⟩, ⟨some 3, false⟩, ⟨some 4, false⟩]
    accumulatedTurnScore := 300
    selection := ⟨[0], true, 100⟩
    bestSelectableScore := 100
    status := TurnStatus.awaitingRoll }

/-- The two-player game holding `bustTurnA`, no final round active. -/
def bustGameA : GameState :=
  { lobbyTwoStarted with turn := some bustTurnA }

/-- The same mid-turn position but with an active final round in which
player A is the only one still owing a turn. -/
def frGameA : GameState :=
  { lobbyTwoStarted with
    turn := some bustTurnA
    finalRound := ⟨true, some "B", ["A"]⟩ }

/-- C3 witness: re-rolling the single unselected die of `bustGameA` to a
face 2 busts; totals are untouched and the active index advances from 0
to 1 = (0 + 1) % 2. -/
theorem C3_bust_advances_witness :
    bustGameA.phase = Phase.inProgress ∧ bustGameA.turn = some bustTurnA ∧
    bustTurnA.status ≠ TurnStatus.awaitingFirstRoll ∧
    bustTurnA.selection.isValid = true ∧ bustTurnA.selection.selectedIndices ≠ [] ∧
    validateIndices bustTurnA.dice bustTurnA.selection.selectedIndices.dedup = none ∧
    bustTurnA.selection.selectedIndices.dedup.length
      ≠ (selectableIndicesOf bustTurnA.dice).length ∧
    (rerollDice bustTurnA.selection.selectedIndices.dedup bustTurnA.dice [2]).2 ≠ [] ∧
    isBust (rerollDice bustTurnA.selection.selectedIndices.dedup bustTurnA.dice [2]).2 = true ∧
    ∃ g', rollTurnDice [2] bustGameA = EngineResult.ok g' (some Outcome.bust) ∧
      g'.players = bustGameA.players ∧
      g'.activeTurnIndex = (bustGameA.activeTurnIndex + 1) % bustGameA.turnOrder.length ∧
      g'.activeTurnIndex < g'.turnOrder.length ∧
      g'.phase = Phase.inProgress :=
  ⟨by decide, by decide, by decide, by decide, by decide, by decide, by decide, by decide,
    by decide,
    C3_bust_advances bustGameA bustTurnA [2] (by decide) (by decide) (by decide) (by decide)
      (by decide) (by decide) (by decide) (by decide) (by decide) (by decide) (by decide)⟩

/-- C3 counterexample: in `frGameA` the same busting re-roll empties the
final round's pending list, so the game finishes: the result is a
success with outcome `bust` but the active-turn index stays 0 — it does
not advance to (0 + 1) % 2 = 1 — refuting the unconditional claim that a
bust advances the active-turn index. -/
theorem C3_counterexample :
    frGameA.phase = Phase.inProgress ∧ frGameA.turn = some bustTurnA ∧
    bustTurnA.selection.isValid = true ∧
    isBust (rerollDice bustTurnA.selection.selectedIndices.dedup bustTurnA.dice [2]).2 = true ∧
    (rollTurnDice [2] frGameA).isOk = true ∧
    (rollTurnDice [2] frGameA).outcomeOf = some Outcome.bust ∧
    ((rollTurnDice [2] frGameA).stateD frGameA).activeTurnIndex = 0 ∧
    (frGameA.activeTurnIndex + 1) % frGameA.turnOrder.length = 1 ∧
    (0 : Nat) ≠ 1 ∧
    ((rollTurnDice [2] frGameA).stateD frGameA).phase = Phase.finished := by decide

/-- Build `GoodState` from the permutation invariant plus the two
phase-dependent conditions: the length and membership conjuncts follow
from the permutation. -/
theorem goodState_intro (g : GameState)
    (hperm : List.Perm g.turnOrder (g.players.map (·.playerId)))
    (hturn : g.phase ≠ Phase.inProgress → g.turn = none)
    (hidx : g.phase = Phase.inProgress → g.activeTurnIndex < g.turnOrder.length) :
    GoodState g := by
  refine ⟨⟨?_, hturn, hidx, ?_⟩, hperm⟩
  · rw [hperm.length_eq, List.length_map]
  · intro pid hpid
    exact hperm.mem_iff.mp hpid

/-- Writing back the element already stored at an index is the identity. -/
theorem set_get?_self {α : Type} (l : List α) (i : Nat) (a : α)
    (h : l.get? i = some a) : l.set i a = l := by
  induction l generalizing i with
  | nil => rfl
  | cons x xs ih =>
    cases i with
    | zero =>
      rw [List.get?_cons_zero, Option.some.injEq] at h
      rw [List.set_cons_zero, h]
    | succ n =>
      rw [List.get?_cons_succ] at h
      rw [List.set_cons_succ, ih n h]

/-- Updating a player in place with a record carrying the same id leaves
the id list (and hence the turn-order permutation invariant) unchanged. -/
theorem map_playerId_set (l : List PlayerState) (i : Nat) (p q : PlayerState)
    (hget : l.get? i = some p) (hq : q.playerId = p.playerId) :
    (l.set i q).map (·.playerId) = l.map (·.playerId) := by
  rw [List.map_set, hq]
  apply set_get?_self
  rw [List.get?_eq_getElem?, List.getElem?_map, ← List.get?_eq_getElem?, hget]
  rfl

/-- Installing a turn in an in-progress good state keeps it good. -/
theorem goodState_setTurn (g : GameState) (hg : GoodState g)
    (hph : g.phase = Phase.inProgress) (t' : TurnState) :
    GoodState { g with turn := some t' } := by
  apply goodState_intro
  · exact hg.2
  · intro h
    exact absurd hph h
  · intro _
    exact hg.1.2.2.1 hph

/-- Variant of `goodState_setTurn` with the phase field written as the
literal `inProgress` (the form left behind after rewriting). -/
theorem goodState_setTurnP (g : GameState) (hg : GoodState g)
    (hph : g.phase = Phase.inProgress) (t' : TurnState) :
    GoodState { g with phase := Phase.inProgress, turn := some t' } := by
  apply goodState_intro
  · exact hg.2
  · intro h
    exact absurd rfl h
  · intro _
    exact hg.1.2.2.1 hph

/-- `advanceCore` of an in-progress state with a non-empty turn order and
the permutation invariant is good. -/
theorem goodState_advanceCore (X : GameState) (hph : X.phase = Phase.inProgress)
    (hlen : 0 < X.turnOrder.length)
    (hperm : List.Perm X.turnOrder (X.players.map (·.playerId))) :
    GoodState (advanceCore X) := by
  apply goodState_intro
  · exact hperm
  · intro h
    exact absurd hph h
  · intro _
    exact Nat.mod_lt _ hlen

/-- A successful `finishGame` of a state with the permutation invariant
is good: the turn is cleared and the index condition is vacuous. -/
theorem goodState_finishGame (X g' : GameState) (oc : Option Outcome)
    (hperm : List.Perm X.turnOrder (X.players.map (·.playerId)))
    (hs : finishGame X = EngineResult.ok g' oc) : GoodState g' := by
  rw [finishGame_fields X g' oc hs]
  apply goodState_intro
  · exact hperm
  · intro _
    rfl
  · intro h
    exact Phase.noConfusion h

/-- A successful bust block (`bustOutcome`) of an in-progress good state
returns a good state: it either finishes the game or advances the turn. -/
theorem goodState_bustOutcome (g : GameState) (t : TurnState) (hg : GoodState g)
    (hph : g.phase = Phase.inProgress) :
    ∀ g' oc, bustOutcome g t = EngineResult.ok g' oc → GoodState g' := by
  intro g' oc hs
  unfold bustOutcome at hs
  dsimp only at hs
  split at hs
  · obtain ⟨⟨oc0, hr⟩, -⟩ := okWithBust_eq_ok _ _ _ hs
    refine goodState_finishGame _ g' oc0 ?_ hr
    exact hg.2
  · rw [advanceToNextTurn_eq_ok
      { g with turn := none, finalRound := removeFromRemaining g.finalRound t.playerId }
      hph] at hs
    simp only [okWithBust, EngineResult.ok.injEq] at hs
    rw [← hs.1]
    exact goodState_advanceCore _ hph
      (Nat.lt_of_le_of_lt (Nat.zero_le _) (hg.1.2.2.1 hph)) hg.2

/-- A successful `bankContinue` of an in-progress state with the
permutation invariant and a valid active index is good. -/
theorem goodState_bankContinue (X : GameState) (hph : X.phase = Phase.inProgress)
    (hperm : List.Perm X.turnOrder (X.players.map (·.playerId)))
    (hidx : X.activeTurnIndex < X.turnOrder.length) :
    ∀ g' oc, bankContinue X = EngineResult.ok g' oc → GoodState g' := by
  intro g' oc hs
  unfold bankContinue at hs
  split at hs
  · obtain ⟨⟨oc0, hr⟩, -⟩ := okDropOutcome_eq_ok _ _ _ hs
    exact goodState_finishGame X g' oc0 hperm hr
  · rw [advanceToNextTurn_eq_ok X hph] at hs
    simp only [okDropOutcome, EngineResult.ok.injEq] at hs
    rw [← hs.1]
    exact goodState_advanceCore X hph (Nat.lt_of_le_of_lt (Nat.zero_le _) hidx) hperm

/-- `startGame` preserves the strengthened invariants. -/
theorem goodState_startGame (g : GameState) (hg : GoodState g) :
    ∀ g' oc, startGame g = EngineResult.ok g' oc → GoodState g' := by
  intro g' oc hs
  by_cases h1 : g.phase = Phase.lobby
  · by_cases h2 : g.players = []
    · rw [startGame] at hs
      simp [h1, h2] at hs
    · rw [startGame_eq_ok g h1 h2] at hs
      rw [EngineResult.ok.injEq] at hs
      rw [← hs.1]
      apply goodState_intro
      · exact hg.2
      · intro h
        exact absurd rfl h
      · intro _
        show 0 < g.turnOrder.length
        rw [hg.2.length_eq, List.length_map]
        exact List.length_pos.mpr h2
  · rw [startGame] at hs
    simp [h1] at hs

/-- `advanceToNextTurn` preserves the strengthened invariants. -/
theorem goodState_advanceToNextTurn (g : GameState) (hg : GoodState g) :
    ∀ g' oc, advanceToNextTurn g = EngineResult.ok g' oc → GoodState g' := by
  intro g' oc hs
  by_cases hph : g.phase = Phase.inProgress
  · rw [advanceToNextTurn_eq_ok g hph] at hs
    rw [EngineResult.ok.injEq] at hs
    rw [← hs.1]
    exact goodState_advanceCore g hph
      (Nat.lt_of_le_of_lt (Nat.zero_le _) (hg.1.2.2.1 hph)) hg.2
  · rw [advanceToNextTurn, advanceToNextTurnF] at hs
    simp [hph] at hs

/-- `rollTurnDice` preserves the strengthened invariants. -/
theorem goodState_rollTurnDice (g : GameState) (hg : GoodState g) :
    ∀ rolls g' oc, rollTurnDice rolls g = EngineResult.ok g' oc → GoodState g' := by
  intro rolls g' oc hs
  unfold rollTurnDice at hs
  cases hph : g.phase <;> rw [hph] at hs
  case lobby => simp at hs
  case finished => simp at hs
  case inProgress =>
    cases ht : g.turn with
    | none => rw [ht] at hs; simp at hs
    | some t =>
      rw [ht] at hs
      dsimp only at hs
      iterate 6 (all_goals try (split at hs))
      all_goals first
        | exact goodState_bustOutcome g t hg hph g' oc hs
        | (rw [EngineResult.ok.injEq] at hs
           rw [← hs.1]
           exact goodState_setTurnP g hg hph _)
        | simp at hs

/-- `bankTurnScore` preserves the strengthened invariants. -/
theorem goodState_bankTurnScore (g : GameState) (hg : GoodState g) :
    ∀ g' oc, bankTurnScore g = EngineResult.ok g' oc → GoodState g' := by
  intro g' oc hs
  unfold bankTurnScore at hs
  cases hph : g.phase <;> rw [hph] at hs
  case lobby => simp at hs
  case finished => simp at hs
  case inProgress =>
    cases ht : g.turn with
    | none => rw [ht] at hs; simp at hs
    | some t =>
      rw [ht] at hs
      dsimp only at hs
      cases hfind : g.players.findIdx? (fun p => p.playerId == t.playerId) with
      | none => rw [hfind] at hs; simp at hs
      | some i =>
        rw [hfind] at hs
        have hlt : i < g.players.length :=
          (List.findIdx?_eq_some_iff_findIdx_eq.mp hfind).1
        obtain ⟨p, hget⟩ : ∃ p, g.players.get? i = some p :=
          ⟨g.players.get ⟨i, hlt⟩, List.get?_eq_get hlt⟩
        have hgetD : g.players.getD i (⟨"", 0, false⟩ : PlayerState) = p :=
          getD_of_get? _ _ _ _ hget
        dsimp only at hs
        rw [hgetD] at hs
        have hmapset : ∀ q : PlayerState, q.playerId = p.playerId →
            List.Perm g.turnOrder ((g.players.set i q).map (·.playerId)) := by
          intro q hq
          rw [map_playerId_set g.players i p q hget hq]
          exact hg.2
        iterate 6 (all_goals try (split at hs))
        all_goals first
          | (obtain ⟨⟨oc0, hr⟩, -⟩ := okDropOutcome_eq_ok _ _ _ hs
             refine goodState_finishGame _ g' oc0 ?_ hr
             exact hmapset _ rfl)
          | (refine goodState_bankContinue _ ?_ ?_ ?_ g' oc hs
             rfl
             exact hmapset _ rfl
             exact hg.1.2.2.1 hph)
          | simp at hs

/-- `finishGame` preserves the strengthened invariants. -/
theorem goodState_finishGame_top (g : GameState) (hg : GoodState g) :
    ∀ g' oc, finishGame g = EngineResult.ok g' oc → GoodState g' := by
  intro g' oc hs
  exact goodState_finishGame g g' oc hg.2 hs

/-- `addPlayer` preserves the strengthened invariants. -/
theorem goodState_addPlayer (g : GameState) (hg : GoodState g) :
    ∀ p g' oc, addPlayer g p = EngineResult.ok g' oc → GoodState g' := by
  intro p g' oc hs
  unfold addPlayer at hs
  by_cases h1 : g.phase = Phase.lobby
  · by_cases h2 : p.playerId = ""
    · simp [h1, h2] at hs
    · by_cases h3 : (g.players.any fun q => q.playerId == p.playerId) = true
      · simp [h1, h2, h3] at hs
      · simp only [h1, h2, h3, ne_eq, not_true_eq_false, if_false, reduceIte,
          not_false_eq_true, if_true, Bool.false_eq_true] at hs
        rw [EngineResult.ok.injEq] at hs
        rw [← hs.1]
        apply goodState_intro
        · show List.Perm (g.turnOrder ++ [p.playerId]) ((g.players ++ [p]).map (·.playerId))
          rw [List.map_append]
          exact hg.2.append (List.Perm.refl _)
        · intro _
          show g.turn = none
          exact hg.1.2.1 (by rw [h1]; intro hcon; exact Phase.noConfusion hcon)
        · intro hcon
          simp at hcon
  · simp [h1] at hs

/-- `removePlayer` preserves the strengthened invariants. -/
theorem goodState_removePlayer (g : GameState) (hg : GoodState g) :
    ∀ pid g' oc, removePlayer g pid = EngineResult.ok g' oc → GoodState g' := by
  intro pid g' oc hs
  unfold removePlayer at hs
  by_cases h1 : g.phase = Phase.lobby
  · by_cases h2 : (g.players.any fun q => q.playerId == pid) = true
    · simp only [h1, h2, ne_eq, not_true_eq_false, if_false, reduceIte,
        Bool.not_true, Bool.false_eq_true, if_true] at hs
      rw [EngineResult.ok.injEq] at hs
      rw [← hs.1]
      apply goodState_intro
      · show List.Perm (g.turnOrder.filter (fun x => decide (x ≠ pid)))
          ((g.players.filter (fun q => decide (q.playerId ≠ pid))).map (·.playerId))
        have hmf : (g.players.map (·.playerId)).filter (fun x => decide (x ≠ pid))
            = (g.players.filter (fun q => decide (q.playerId ≠ pid))).map (·.playerId) := by
          rw [List.map_filter]
          rfl
        rw [← hmf]
        exact hg.2.filter _
      · intro _
        show g.turn = none
        exact hg.1.2.1 (by rw [h1]; intro hcon; exact Phase.noConfusion hcon)
      · intro hcon
        simp at hcon
    · simp [h1, h2] at hs
  · simp [h1] at hs

/-- `toggleDieSelection` preserves the strengthened invariants. -/
theorem goodState_toggleDieSelection (g : GameState) (hg : GoodState g) :
    ∀ i g' oc, toggleDieSelection g i = EngineResult.ok g' oc → GoodState g' := by
  intro i g' oc hs
  unfold toggleDieSelection at hs
  by_cases h1 : g.phase = Phase.inProgress
  · cases ht : g.turn with
    | none => rw [ht] at hs; simp [h1] at hs
    | some t =>
      rw [ht] at hs
      by_cases h2 : t.dice.length ≤ i
      · simp [h1, h2] at hs
      · by_cases h3 : (t.dice.getD i ⟨none, false⟩).selectable = true
        · simp only [h1, h2, h3, ne_eq, not_true_eq_false, if_false, reduceIte,
            not_false_eq_true, if_true, Bool.not_true, Bool.false_eq_true] at hs
          rw [EngineResult.ok.injEq] at hs
          rw [← hs.1]
          exact goodState_setTurnP g hg h1 _
        · have h3f : ((t.dice[i]?).getD (⟨none, false⟩ : DieState)).selectable = false := by
            rw [← List.getD_eq_getElem?_getD]
            simpa using h3
          simp [h1, h2, h3f] at hs
  · simp [h1] at hs

/-- C8 (amended): every transition function — `startGame`,
`advanceToNextTurn`, `rollTurnDice`, `bankTurnScore`, `finishGame`,
`addPlayer`, `removePlayer`, `toggleDieSelection` — given a snapshot
satisfying the claimed structural invariants strengthened with the
spec's own §3 clause that the turn order is a permutation of the
roster's player ids, returns on success a snapshot that satisfies them
again. Without the permutation strengthening the claim fails:
`removePlayer` on a duplicated turn-order entry breaks the length
invariant (see the counterexample). -/
theorem C8_invariants_preserved (g : GameState) (hg : GoodState g) :
    (∀ g' oc, startGame g = EngineResult.ok g' oc → GoodState g') ∧
    (∀ g' oc, advanceToNextTurn g = EngineResult.ok g' oc → GoodState g') ∧
    (∀ rolls g' oc, rollTurnDice rolls g = EngineResult.ok g' oc → GoodState g') ∧
    (∀ g' oc, bankTurnScore g = EngineResult.ok g' oc → GoodState g') ∧
    (∀ g' oc, finishGame g = EngineResult.ok g' oc → GoodState g') ∧
    (∀ p g' oc, addPlayer g p = EngineResult.ok g' oc → GoodState g') ∧
    (∀ pid g' oc, removePlayer g pid = EngineResult.ok g' oc → GoodState g') ∧
    (∀ i g' oc, toggleDieSelection g i = EngineResult.ok g' oc → GoodState g') :=
  ⟨goodState_startGame g hg, goodState_advanceToNextTurn g hg,
    goodState_rollTurnDice g hg, goodState_bankTurnScore g hg,
    goodState_finishGame_top g hg, goodState_addPlayer g hg,
    goodState_removePlayer g hg, goodState_toggleDieSelection g hg⟩

/-- C8 witness: the two-player lobby satisfies the strengthened
invariants, and so does the state `startGame` produces from it. -/
theorem C8_invariants_preserved_witness :
    GoodState lobbyTwo ∧ startGame lobbyTwo = EngineResult.ok lobbyTwoStarted none ∧
    GoodState lobbyTwoStarted :=
  ⟨by decide, by decide,
    (C8_invariants_preserved lobbyTwo (by decide)).1 lobbyTwoStarted none (by decide)⟩

/-- A lobby snapshot meeting the four invariants exactly as the claim
lists them, but whose turn order repeats the id "A". -/
def dupOrderGame : GameState :=
  { phase := Phase.lobby
    config := ⟨500, 10000⟩
    players := [playerA, playerB]
    turnOrder := ["A", "A"]
    activeTurnIndex := 0
    turn := none
    finalRound := ⟨false, none, []⟩ }

/-- C8 counterexample: `dupOrderGame` satisfies every invariant the claim
lists (lengths 2 = 2, no turn outside `in_progress`, index condition
vacuous, every turn-order id names an existing player), yet
`removePlayer` of "A" succeeds and returns a snapshot with turn-order
length 0 but player count 1, breaking the length invariant — so the
invariants exactly as claimed are not preserved. -/
theorem C8_counterexample :
    ClaimedInvariants dupOrderGame ∧
    (removePlayer dupOrderGame "A").isOk = true ∧
    ¬ ClaimedInvariants ((removePlayer dupOrderGame "A").stateD dupOrderGame) := by decide

end Farkle
